import Mathlib

/-!
Verification development for the `CountThisInThat` streaming merge-join counter
(`benbiohelpers` repository).  The Python sources are shallowly embedded as
executable Lean functions:

* `InputDataStructures.py` → `EncompassedData`, `EncompassingData` and the
  per-feature `stratifierData` update logic;
* `OutputDataStratifiers.py` → `Stratifier` descriptors (one per ODS class),
  the key-space / nested-dictionary operations (`attemptAddKey`,
  `addDictionaries`) and the concrete key computations;
* `CounterOutputDataHandler.py` → the event handler
  (`onEncompassedFeatureInEncompassingFeature` and friends) folded over the
  event trace emitted by the engine;
* `Counter.py` → the fuel-indexed merge-join engine (`ThisInThatCounter`).

Python floats on the half-integer genomic coordinates used here are exact, so
positions are embedded as `ℚ`.  Python `int()` truncation is `pyInt`.
-/

set_option maxHeartbeats 1000000

namespace CountThisInThat

/-! Kernel-reducible rational and string primitives.  Batteries marks
`Rat.add`, `Rat.sub`, `Rat.mul`, `Rat.div` and `Rat.neg` `@[irreducible]`, and
`String.lt`'s decidability instance is likewise opaque to the kernel, so
concrete runs could not be settled by `decide` through them.  The wrappers
below compute the same values through `Rat.divInt` (every `ℚ` is kept in
normal form by construction, so propositional equality on `ℚ` remains Python's
value equality), with bridging lemmas to the standard operations proved in the
theorems section. -/

/-- Addition on `ℚ` (kernel-reducible; equals `a + b`). -/
def qAdd (a b : ℚ) : ℚ := Rat.divInt (a.num * b.den + b.num * a.den) (a.den * b.den)

/-- Subtraction on `ℚ` (kernel-reducible; equals `a - b`). -/
def qSub (a b : ℚ) : ℚ := Rat.divInt (a.num * b.den - b.num * a.den) (a.den * b.den)

/-- Multiplication on `ℚ` (kernel-reducible; equals `a * b`). -/
def qMul (a b : ℚ) : ℚ := Rat.divInt (a.num * b.num) (a.den * b.den)

/-- Division on `ℚ` (kernel-reducible; equals `a / b`, with Lean's `q / 0 = 0`
convention standing in for Python's `ZeroDivisionError`). -/
def qDiv (a b : ℚ) : ℚ := Rat.divInt (a.num * b.den) (a.den * b.num)

/-- The rational value of an integer (kernel-reducible cast). -/
def qOfInt (n : ℤ) : ℚ := Rat.divInt n 1

/-- The rational value of a natural number (kernel-reducible cast). -/
def qOfNat (n : ℕ) : ℚ := Rat.divInt n 1

/-- The constant `0.5`. -/
def qHalf : ℚ := Rat.divInt 1 2

/-- Lexicographic strict comparison of character lists by code point. -/
def charListLt : List Char → List Char → Bool
  | [], [] => false
  | [], _ :: _ => true
  | _ :: _, [] => false
  | a :: as, b :: bs =>
      a.toNat < b.toNat || (a = b && charListLt as bs)

/-- Python's `<` on strings: lexicographic by code point (the same order as
Lean's `String.lt`, but kernel-reducible). -/
def strLt (a b : String) : Bool := charListLt a.data b.data

/-- Truncation toward zero, the behaviour of Python's `int()` on floats. -/
def pyInt (q : ℚ) : ℤ := q.num.tdiv q.den

/-! ### InputDataStructures.py -/

/-- Constant `ENCOMPASSED_DATA` from `InputDataStructures.py`. -/
def ENCOMPASSED_DATA : ℕ := 1

/-- Constant `ENCOMPASSING_DATA` from `InputDataStructures.py`. -/
def ENCOMPASSING_DATA : ℕ := 2

/-- `EncompassedData`: a point-like record.  `idx` is the input line number and
stands for Python object identity (each input line constructs a fresh object);
it is not part of `__eq__`/`__hash__`, which use `(chromosome, position, strand)`. -/
structure EncompassedData where
  idx : ℕ
  chromosome : String
  position : ℚ
  strand : Char
deriving DecidableEq, Repr

/-- `EncompassedData.setLocationData`: build a feature from the first three BED
columns and the strand column; `position = (col2 + col3 - 1) / 2`. -/
def EncompassedData.ofFields (idx : ℕ) (chromosome : String) (col2 col3 : ℚ)
    (strand : Char) : EncompassedData :=
  { idx := idx, chromosome := chromosome,
    position := qDiv (qSub (qAdd col2 col3) 1) 2, strand := strand }

/-- The `__key` tuple of `EncompassedData` (used by `__eq__`/`__hash__`). -/
def EncompassedData.pyKey (f : EncompassedData) : String × ℚ × Char :=
  (f.chromosome, f.position, f.strand)

/-- The `__lt__` of `EncompassedData`: (chromosome, position) lexicographic,
strand excluded. -/
def EncompassedData.pyLt (a b : EncompassedData) : Bool :=
  strLt a.chromosome b.chromosome ∨
    (a.chromosome = b.chromosome ∧ a.position < b.position)

/-- `EncompassingData`: an interval record. -/
structure EncompassingData where
  chromosome : String
  startPos : ℚ
  endPos : ℚ
  strand : Char
deriving DecidableEq, Repr

/-- `EncompassingData.setLocationData`: `startPos = col2`, `endPos = col3 - 1`. -/
def EncompassingData.ofFields (chromosome : String) (col2 col3 : ℚ)
    (strand : Char) : EncompassingData :=
  { chromosome := chromosome, startPos := col2, endPos := qSub col3 1,
    strand := strand }

/-- The stored `center` attribute: `(startPos + endPos) / 2`. -/
def EncompassingData.center (g : EncompassingData) : ℚ :=
  qDiv (qAdd g.startPos g.endPos) 2

/-- `EncompassingData.getLength`: `endPos - startPos + 1`. -/
def EncompassingData.getLength (g : EncompassingData) : ℚ :=
  qAdd (qSub g.endPos g.startPos) 1

/-- The `__key` tuple of `EncompassingData`. -/
def EncompassingData.pyKey (g : EncompassingData) : String × ℚ × ℚ × Char :=
  (g.chromosome, g.startPos, g.endPos, g.strand)

/-! ### Stratifier keys and per-feature stratifier data -/

/-- The values stored as dictionary keys by the various output data
stratifiers: relative positions (`ℚ`), fraction bins (`ℤ`), strand-comparison
booleans, context/column strings, and the two feature identity keys (which in
Python are the feature objects themselves, compared by their `__key` tuples). -/
inductive SKey where
  | rat (q : ℚ)
  | int (n : ℤ)
  | bool (b : Bool)
  | str (s : String)
  | encompassedKey (chromosome : String) (position : ℚ) (strand : Char)
  | encompassingKey (chromosome : String) (startPos endPos : ℚ) (strand : Char)
deriving DecidableEq, Repr

/-- The identity key of an encompassed feature (Python uses the object itself;
dictionary membership is decided by `__eq__`, i.e. by this tuple). -/
def EncompassedData.skey (f : EncompassedData) : SKey :=
  .encompassedKey f.chromosome f.position f.strand

/-- The identity key of an encompassing feature. -/
def EncompassingData.skey (g : EncompassingData) : SKey :=
  .encompassingKey g.chromosome g.startPos g.endPos g.strand

/-- One entry of a feature's `stratifierData` dictionary: the `(value,
isAmbiguous)` pair, with `none` for Python's initial `None` value. -/
abbrev StratDataEntry := Option SKey × Bool

/-- `EncompassedData.updateStratifierData`, at the level of a single entry:
`if (oldData is not None and oldData != newData): ambiguous = True`, then the
pair `(newData, ambiguous)` is stored. -/
def updateStratifierDataEntry (e : StratDataEntry) (newData : SKey) : StratDataEntry :=
  (some newData, if e.1 ≠ none ∧ e.1 ≠ some newData then true else e.2)

/-- The Python classes of the output data stratifiers; a feature's
`stratifierData` dictionary is keyed by `type(self)` of the stratifier. -/
inductive StratClass where
  | relativePosODS
  | featureFractionODS
  | strandComparisonODS
  | encompassingFeatureODS
  | encompassedFeatureODS
  | encompassedFeatureContextODS
  | simpleEncompassingColStrODS
  | placeholderODS
deriving DecidableEq, Repr

/-- A feature's `stratifierData` dictionary. -/
abbrev SDMap := List (StratClass × StratDataEntry)

/-- Dictionary read with the `setdefault(stratifierClass, (None, False))`
behaviour used by `getStratifierData` / `updateStratifierData`. -/
def sdGet (sd : SDMap) (c : StratClass) : StratDataEntry :=
  match sd.lookup c with
  | some e => e
  | none => (none, false)

/-- Dictionary write (replace or append). -/
def sdSet : SDMap → StratClass → StratDataEntry → SDMap
  | [], c, v => [(c, v)]
  | (c', v') :: rest, c, v =>
      if c' = c then (c, v) :: rest else (c', v') :: sdSet rest c v

/-- `EncompassedData.updateStratifierData` on the whole dictionary. -/
def updateStratifierData (sd : SDMap) (c : StratClass) (newData : SKey) : SDMap :=
  sdSet sd c (updateStratifierDataEntry (sdGet sd c) newData)

/-- `AmbiguityHandling` enum from `OutputDataStratifiers.py`. -/
inductive AmbiguityHandling where
  | tolerate
  | ignore
  | record
deriving DecidableEq, Repr

/-- How a stratifier's `getRelevantKey` obtains its key:
* `fromStratifierData` — the base-class implementation reading the feature's
  `stratifierData` (used by `RelativePosODS`, `FeatureFractionODS`,
  `StrandComparisonODS`, `EncompassingFeatureODS`, `SimpleEncompassingColStrODS`);
* `constNone` — `PlaceholderODS` always returns `None`;
* `identity` — `EncompassedFeatureODS` returns the feature itself;
* `fromFeature` — a key computed from the feature alone
  (`EncompassedFeatureContextODS`). -/
inductive KeySource where
  | fromStratifierData
  | constNone
  | identity
  | fromFeature (h : EncompassedData → SKey)

/-- A stratifier of the pipeline: its class, ambiguity handling, the shape of
its `getRelevantKey`, its `updateConfirmedEncompassedFeature` action (`none`
when the method does nothing, as in `EncompassedFeatureODS`,
`EncompassedFeatureContextODS` and `PlaceholderODS`), and the keys its
constructor pre-populates (including the `None` sentinel added by the base
constructor when the ambiguity handling is `record`). -/
structure Stratifier where
  cls : StratClass
  ambiguityHandling : AmbiguityHandling
  keySource : KeySource
  updateFn : Option (EncompassedData → EncompassingData → SKey)
  initialKeys : List (Option SKey)
  outputName : String
  /-- Whether `getRelevantKey` adds the key it returns to the key space, as in
  `EncompassedFeatureODS`, `EncompassedFeatureContextODS` and
  `SimpleEncompassingColStrODS` (the latter only for non-`None` keys, which is
  the unified rule since the former two never return `None`). -/
  addKeyOnRead : Bool
  /-- `RelativePosODS.relativePosIntPositions` (empty for other classes). -/
  relativePosIntPositions : List ℚ
  /-- `RelativePosODS.relativePosHalfPositions` (empty for other classes). -/
  relativePosHalfPositions : List ℚ

/-- `RelativePosODS.updateConfirmedEncompassedFeature`: `position - center`
when `centerRelativePos` else `position - startPos`. -/
def relativePosUpdate (centerRelativePos : Bool) (f : EncompassedData)
    (g : EncompassingData) : SKey :=
  .rat (if centerRelativePos then qSub f.position g.center
        else qSub f.position g.startPos)

/-- `StrandComparisonODS.updateConfirmedEncompassedFeature`:
`encompassedFeature.strand == encompassingFeature.strand`. -/
def strandComparisonUpdate (f : EncompassedData) (g : EncompassingData) : SKey :=
  .bool (f.strand = g.strand)

/-- `EncompassingFeatureODS.updateConfirmedEncompassedFeature`: store the
encompassing feature itself. -/
def encompassingFeatureUpdate (_f : EncompassedData) (g : EncompassingData) : SKey :=
  g.skey

/-- The strand-aware relative position computed by
`FeatureFractionODS.updateConfirmedEncompassedFeature`:
`position - startPos` on the `+` strand, `endPos - position` otherwise. -/
def featureFractionRelativePos (f : EncompassedData) (g : EncompassingData) : ℚ :=
  if g.strand = '+' then qSub f.position g.startPos else qSub g.endPos f.position

/-- `FeatureFractionODS.updateConfirmedEncompassedFeature`: the bin number for
the encompassed feature.  (The guard `assert binSize > 0` of the source is a
precondition on the inputs; the formula below is the source's arithmetic.) -/
def featureFractionUpdate (fractionNum : ℕ) (flankingBinSize : ℚ)
    (flankingBinNum : ℕ) (f : EncompassedData) (g : EncompassingData) : SKey :=
  let nonFlankingSize : ℚ :=
    qSub g.getLength (qMul (qMul 2 flankingBinSize) (qOfNat flankingBinNum))
  let binSize : ℚ := qDiv nonFlankingSize (qOfNat fractionNum)
  let relativePos : ℚ :=
    qSub (featureFractionRelativePos f g) (qMul flankingBinSize (qOfNat flankingBinNum))
  if relativePos < 0 then .int (pyInt (qDiv (qAdd relativePos 1) flankingBinSize))
  else if relativePos ≥ nonFlankingSize then
    .int (pyInt (qDiv (qSub relativePos nonFlankingSize) flankingBinSize) +
          fractionNum + 1)
  else .int (pyInt (qDiv relativePos binSize) + 1)

/-- Integer range `[a, b)` as a list (Python's `range`). -/
def intRange (a b : ℤ) : List ℤ :=
  (List.range (b - a).toNat).map (fun i => a + (i : ℤ))

/-- `RelativePosODS.__init__`: computes the pre-populated key space from the
template encompassing feature.  `outputDataRangeLength = endPos - startPos +
extraRangeRadius*2 + 1`; when `centerRelativePos` the integer range is centred
(with the asymmetric even-length convention of the source), and half-positions
`i + 0.5` accompany every integer position except, for odd/uncentred ranges,
the last one.  (The source also seeds the dictionary with the key
`range.start - 0.5` in the even centred case without recording it in
`allKeys`; since `allKeys` drives all output and lookups of that key, the
model keys are the recorded ones.) -/
def RelativePosODS (ambiguityHandling : AmbiguityHandling)
    (encompassingFeature : EncompassingData) (centerRelativePos : Bool)
    (extraRangeRadius : ℤ) (outputName : String) : Stratifier :=
  let outputDataRangeLength : ℚ :=
    qAdd (qSub encompassingFeature.endPos encompassingFeature.startPos)
      (qOfInt (extraRangeRadius * 2 + 1))
  let isEven : Bool := (qDiv outputDataRangeLength 2).den = 1
  let rangeStart : ℤ :=
    if centerRelativePos then
      if isEven then -(pyInt (qDiv outputDataRangeLength 2)) + 1
      else -(pyInt (qDiv outputDataRangeLength 2))
    else 0
  let rangeStop : ℤ :=
    if centerRelativePos then
      if isEven then pyInt (qDiv outputDataRangeLength 2)
      else pyInt (qDiv outputDataRangeLength 2) + 1
    else pyInt outputDataRangeLength
  let intPositions := (intRange rangeStart rangeStop).map qOfInt
  let halfPositions :=
    ((intRange rangeStart rangeStop).filter
      (fun i => (isEven ∧ centerRelativePos) ∨ i ≠ rangeStop - 1)).map
      (fun i => qAdd (qOfInt i) qHalf)
  { cls := .relativePosODS, ambiguityHandling := ambiguityHandling,
    keySource := .fromStratifierData,
    updateFn := some (relativePosUpdate centerRelativePos),
    initialKeys :=
      (if ambiguityHandling = .record then [none] else []) ++
      (intPositions ++ halfPositions).map (fun q => some (.rat q)),
    outputName := outputName, addKeyOnRead := false,
    relativePosIntPositions := intPositions,
    relativePosHalfPositions := halfPositions }

/-- `StrandComparisonODS.__init__`: key space `{True, False}` (plus the `None`
sentinel first when recording ambiguity). -/
def StrandComparisonODS (ambiguityHandling : AmbiguityHandling)
    (outputName : String) : Stratifier :=
  { cls := .strandComparisonODS, ambiguityHandling := ambiguityHandling,
    keySource := .fromStratifierData, updateFn := some strandComparisonUpdate,
    initialKeys :=
      (if ambiguityHandling = .record then [none] else []) ++
      [some (.bool true), some (.bool false)],
    outputName := outputName, addKeyOnRead := false,
    relativePosIntPositions := [], relativePosHalfPositions := [] }

/-- `FeatureFractionODS.__init__`: bins `1..fractionNum` plus `flankingBinNum`
flanking bins on each side. -/
def FeatureFractionODS (ambiguityHandling : AmbiguityHandling)
    (outputName : String) (fractionNum : ℕ) (flankingBinSize : ℚ)
    (flankingBinNum : ℕ) : Stratifier :=
  { cls := .featureFractionODS, ambiguityHandling := ambiguityHandling,
    keySource := .fromStratifierData,
    updateFn := some (featureFractionUpdate fractionNum flankingBinSize flankingBinNum),
    initialKeys :=
      (if ambiguityHandling = .record then [none] else []) ++
      ((List.range fractionNum).map (fun n => some (.int ((n : ℤ) + 1)))) ++
      ((List.range flankingBinNum).flatMap (fun i =>
        [some (.int (0 - (i : ℤ))), some (.int ((fractionNum : ℤ) + 1 + (i : ℤ)))])),
    outputName := outputName, addKeyOnRead := false,
    relativePosIntPositions := [], relativePosHalfPositions := [] }

/-- `EncompassingFeatureODS.__init__`: keys are discovered at run time. -/
def EncompassingFeatureODS (ambiguityHandling : AmbiguityHandling)
    (outputName : String) : Stratifier :=
  { cls := .encompassingFeatureODS, ambiguityHandling := ambiguityHandling,
    keySource := .fromStratifierData, updateFn := some encompassingFeatureUpdate,
    initialKeys := if ambiguityHandling = .record then [none] else [],
    outputName := outputName, addKeyOnRead := false,
    relativePosIntPositions := [], relativePosHalfPositions := [] }

/-- `EncompassedFeatureODS.__init__`: ambiguity handling is forced to
`tolerate`; `getRelevantKey` returns the feature itself, adding it to the key
space. -/
def EncompassedFeatureODS (outputName : String) : Stratifier :=
  { cls := .encompassedFeatureODS, ambiguityHandling := .tolerate,
    keySource := .identity, updateFn := none, initialKeys := [],
    outputName := outputName, addKeyOnRead := true,
    relativePosIntPositions := [], relativePosHalfPositions := [] }

/-- `PlaceholderODS.__init__`: single `None` key, no updates. -/
def PlaceholderODS (ambiguityHandling : AmbiguityHandling)
    (outputName : String) : Stratifier :=
  { cls := .placeholderODS, ambiguityHandling := ambiguityHandling,
    keySource := .constNone, updateFn := none, initialKeys := [none],
    outputName := outputName, addKeyOnRead := false,
    relativePosIntPositions := [], relativePosHalfPositions := [] }

/-! ### The nested count table

The `outputDataStructure` of `CounterOutputDataHandler` is a nest of
dictionaries; each level's keys belong to one stratifier and the innermost
values are counts.  (`SUP_INFO_KEY` entries are not modelled: no supplemental
information handlers appear in the claims.) -/

/-- The nested count table: a `node` per dictionary level, `leaf` counts at
the bottom (the whole table is a bare `leaf` when there are no stratifiers). -/
inductive ODict where
  | leaf (n : ℕ)
  | node (entries : List (Option SKey × ODict))

/-- Association-list lookup among a node's entries. -/
def ODict.child (t : ODict) (k : Option SKey) : ODict :=
  match t with
  | .leaf _ => .leaf 0
  | .node entries =>
      match entries.lookup k with
      | some t' => t'
      | none => .leaf 0

/-- The keys materialized at a node. -/
def ODict.keys (t : ODict) : List (Option SKey) :=
  match t with
  | .leaf _ => []
  | .node entries => entries.map (·.1)

/-- The count stored at a leaf (0 for a node; unreachable in well-formed use). -/
def ODict.countAt (t : ODict) (k : Option SKey) : ℕ :=
  match t.child k with
  | .leaf n => n
  | .node _ => 0

/-- Replace-or-append write into a node's entry list. -/
def entriesSet : List (Option SKey × ODict) → Option SKey → ODict →
    List (Option SKey × ODict)
  | [], k, v => [(k, v)]
  | (k', v') :: rest, k, v =>
      if k' = k then (k, v) :: rest else (k', v') :: entriesSet rest k v

/-- The fully initialized subtree over the given key spaces: this is what
`initializeChildDictionaries` followed by the recursive `addDictionaries`
builds under a fresh key (each level populated with its stratifier's current
`allKeys`, counts 0 at the bottom). -/
def fullTree : List (List (Option SKey)) → ODict
  | [] => .leaf 0
  | ks :: rest => .node (ks.map (fun k => (k, fullTree rest)))

/-- Write `key ↦ fullTree below` into every node at depth `level`
(`attemptAddKey`'s effect on the table: the key is added to every dictionary
of the stratifier's `outputDataDictionaries`, i.e. every node at its level). -/
def ODict.addKeyAtLevel (t : ODict) (level : ℕ) (k : Option SKey)
    (below : List (List (Option SKey))) : ODict :=
  match level, t with
  | 0, .node entries => .node (entriesSet entries k (fullTree below))
  | 0, .leaf n => .leaf n
  | level + 1, .node entries =>
      .node (entries.map (fun e => (e.1, e.2.addKeyAtLevel level k below)))
  | _ + 1, .leaf n => .leaf n

/-- Increment the count at the end of the given key path (`countFeature`'s
`+= 1`; a path through a missing key leaves the table unchanged — in Python
that run would die with a `KeyError` instead). -/
def ODict.increment (t : ODict) : List (Option SKey) → ODict
  | [] =>
      match t with
      | .leaf n => .leaf (n + 1)
      | .node entries => .node entries
  | k :: rest =>
      match t with
      | .leaf n => .leaf n
      | .node entries =>
          .node (entries.map (fun e => if e.1 = k then (e.1, e.2.increment rest) else e))

/-- Remove a key (and its subtree) from the root node: the
`outputDataStructure.pop(...)` performed by `writeWaitingFeatures`. -/
def ODict.popRoot (t : ODict) (k : Option SKey) : ODict :=
  match t with
  | .leaf n => .leaf n
  | .node entries => .node (entries.filter (fun e => e.1 ≠ k))

/-! ### Sorting helpers (Python's stable `sorted` with `__lt__`) -/

/-- Insert `a` after every element it is not strictly below (stable ascending
insertion, matching Python's stable sort for elements processed in order). -/
def pyInsert (lt : α → α → Bool) (a : α) : List α → List α
  | [] => [a]
  | b :: bs => if lt a b then a :: b :: bs else b :: pyInsert lt a bs

/-- Stable ascending sort by a strict comparator, as Python's `sorted`. -/
def pySort (lt : α → α → Bool) (l : List α) : List α :=
  l.foldl (fun acc a => pyInsert lt a acc) []

/-- Constructor index, used only to determinize comparisons between keys of
different shapes (which raise `TypeError` in Python and never occur within one
stratification level). -/
def SKey.ctorIdx : SKey → ℕ
  | .rat _ => 0
  | .int _ => 1
  | .bool _ => 2
  | .str _ => 3
  | .encompassedKey _ _ _ => 4
  | .encompassingKey _ _ _ _ => 5

/-- Python `<` on the key values used by the stratifiers: numeric on numbers,
lexicographic on strings, `False < True` on booleans, and the `__lt__`
methods of the two feature classes (chromosome then position(s), strand
excluded). -/
def SKey.pyLt : SKey → SKey → Bool
  | .rat p, .rat q => p < q
  | .int m, .int n => m < n
  | .bool x, .bool y => !x ∧ y
  | .str s, .str t => strLt s t
  | .encompassedKey c p _, .encompassedKey c' p' _ =>
      strLt c c' ∨ (c = c' ∧ p < p')
  | .encompassingKey c s e _, .encompassingKey c' s' e' _ =>
      strLt c c' ∨ (c = c' ∧ (s < s' ∨ (s = s' ∧ e < e')))
  | a, b => a.ctorIdx < b.ctorIdx

/-! ### Handler state (`CounterOutputDataHandler`) -/

/-- The run-time mutable state of one stratifier: its key space `allKeys`, the
`RelativePosODS` used-position flags, and the `sortedKeys` cache filled by the
first `getKeysForOutput` call. -/
structure ODSState where
  allKeys : List (Option SKey)
  usedIntPosition : Bool
  usedHalfPosition : Bool
  sortedKeysCache : Option (List (Option SKey))

/-- The initial state of a freshly constructed stratifier. -/
def ODSState.initial (s : Stratifier) : ODSState :=
  { allKeys := s.initialKeys, usedIntPosition := false,
    usedHalfPosition := false, sortedKeysCache := none }

/-- The configuration of one counter run: the constructor arguments of
`ThisInThatCounter` and `CounterOutputDataHandler` that the claims involve. -/
structure RunConfig where
  encompassingFeatureExtraRadius : ℚ
  writeIncrementally : ℕ
  trackAllEncompassing : Bool
  trackAllEncompassed : Bool
  countAllEncompassed : Bool

/-- A data row of the output file, abstracted: the stratification keys of all
non-terminal levels followed by the count columns of the terminal level. -/
structure Row where
  path : List (Option SKey)
  counts : List ℕ
deriving DecidableEq, Repr

/-- The state of the `CounterOutputDataHandler` (plus its `OutputDataWriter`):
the stratifier pipeline with its per-stratifier state, every feature's
`stratifierData` (keyed by the feature's input line number, i.e. Python object
identity), the nested count table, the waiting-to-write sets, the rows written
so far in incremental mode, and a flag recording whether the
duplicate-encompassing-feature assertion fired.  `countsLog` is a ghost log:
one entry `(idx, keyPath)` per `countFeature` call. -/
structure HandlerState where
  ods : List (Stratifier × ODSState)
  stratData : List (ℕ × SDMap)
  table : ODict
  countsLog : List (ℕ × List (Option SKey))
  encompassedToWrite : List SKey
  encompassingToWrite : List (Option SKey)
  incrementalRows : List Row
  dupAssertTripped : Bool

/-- The handler state right after `setUpOutputDataHandler`: each stratifier is
constructed in turn, leaving the table fully materialized over the initial key
spaces. -/
def initialHandlerState (stratifiers : List Stratifier) : HandlerState :=
  { ods := stratifiers.map (fun s => (s, ODSState.initial s)),
    stratData := [], table := fullTree (stratifiers.map (·.initialKeys)),
    countsLog := [], encompassedToWrite := [], encompassingToWrite := [],
    incrementalRows := [], dupAssertTripped := false }

/-- Modify the element at an index of a list (identity when out of range). -/
def listModify (g : α → α) : ℕ → List α → List α
  | _, [] => []
  | 0, a :: rest => g a :: rest
  | i + 1, a :: rest => a :: listModify g i rest

/-- The key space of the stratifier at a level. -/
def HandlerState.allKeysAt (st : HandlerState) (level : ℕ) : List (Option SKey) :=
  match st.ods.get? level with
  | some p => p.2.allKeys
  | none => []

/-- The `stratifierData` dictionary of the feature with the given identity. -/
def HandlerState.sdOf (st : HandlerState) (idx : ℕ) : SDMap :=
  match st.stratData.lookup idx with
  | some sd => sd
  | none => []

/-- Python `set.add`. -/
def setAdd [DecidableEq α] (l : List α) (a : α) : List α :=
  if a ∈ l then l else l ++ [a]

/-- `OutputDataStratifier.attemptAddKey` as seen from the handler: if the key
is new, add it to the stratifier's key space and materialize it (with a fully
initialized subtree over the deeper key spaces, per `addDictionaries`) in
every dictionary at the stratifier's level. -/
def attemptAddKeyH (st : HandlerState) (level : ℕ) (k : Option SKey) : HandlerState :=
  if k ∈ st.allKeysAt level then st
  else
    match st.ods.get? level with
    | none => st
    | some _ =>
        { st with
          ods := listModify (fun p => (p.1, { p.2 with allKeys := p.2.allKeys ++ [k] }))
                   level st.ods,
          table := st.table.addKeyAtLevel level k
                     ((st.ods.drop (level + 1)).map (·.2.allKeys)) }

/-- The base `OutputDataStratifier.getRelevantKey` and its overrides, without
side effects: read the feature's `stratifierData` and return the stored value
unless a non-tolerant stratifier saw ambiguity (`PlaceholderODS` always
returns `None`; the identity and feature-derived variants compute their key
from the feature alone). -/
def getRelevantKeyPure (s : Stratifier) (sd : SDMap) (f : EncompassedData) :
    Option SKey :=
  match s.keySource with
  | .fromStratifierData =>
      let e := sdGet sd s.cls
      if s.ambiguityHandling = .tolerate ∨ e.2 = false then e.1 else none
  | .constNone => none
  | .identity => some f.skey
  | .fromFeature h => some (h f)

/-- The used-position flag updates of `RelativePosODS.getRelevantKey`. -/
def relPosFlagsUpdate (st : HandlerState) (level : ℕ) (s : Stratifier)
    (k : Option SKey) : HandlerState :=
  if s.cls = .relativePosODS then
    match k with
    | some (.rat q) =>
        let upd := fun (p : Stratifier × ODSState) =>
          (p.1,
           { p.2 with
             usedIntPosition :=
               p.2.usedIntPosition || decide (q ∈ s.relativePosIntPositions),
             usedHalfPosition :=
               p.2.usedHalfPosition || decide (q ∈ s.relativePosHalfPositions) })
        { st with ods := listModify upd level st.ods }
    | _ => st
  else st

/-- `getRelevantKey` with its side effects: the `RelativePosODS`
used-position flags and the add-on-read key registration of the identity /
context / column-string stratifiers. -/
def getRelevantKeyM (st : HandlerState) (level : ℕ) (f : EncompassedData) :
    Option SKey × HandlerState :=
  match st.ods.get? level with
  | none => (none, st)
  | some (s, _) =>
      let k := getRelevantKeyPure s (st.sdOf f.idx) f
      let st := relPosFlagsUpdate st level s k
      let st := if s.addKeyOnRead ∧ k.isSome then attemptAddKeyH st level k else st
      (k, st)

/-- Update one feature's entry in the per-feature `stratifierData` store. -/
def featureSDUpdate : List (ℕ × SDMap) → ℕ → StratClass → SKey → List (ℕ × SDMap)
  | [], i, c, v => [(i, updateStratifierData [] c v)]
  | (j, sd) :: rest, i, c, v =>
      if j = i then (j, updateStratifierData sd c v) :: rest
      else (j, sd) :: featureSDUpdate rest i c v

/-- One iteration of the `updateODSs` loop: call the stratifier's
`updateConfirmedEncompassedFeature`, then (for every non-terminal level)
`getRelevantKey` for the dictionary drill-down.  (The drill-down only feeds
supplemental-information handlers, which are not modelled, but its
`getRelevantKey` side effects are kept; a missing key there raises `KeyError`
in Python and is a no-op here.) -/
def updateODSsStep (f : EncompassedData) (g : EncompassingData)
    (st : HandlerState) (level : ℕ) : HandlerState :=
  match st.ods.get? level with
  | none => st
  | some (s, _) =>
      let st :=
        match s.updateFn with
        | some u => { st with stratData := featureSDUpdate st.stratData f.idx s.cls (u f g) }
        | none => st
      if level + 1 = st.ods.length then st
      else (getRelevantKeyM st level f).2

/-- `CounterOutputDataHandler.updateODSs`. -/
def updateODSs (f : EncompassedData) (g : EncompassingData)
    (st : HandlerState) : HandlerState :=
  (List.range st.ods.length).foldl (updateODSsStep f g) st

/-- The key path used by `countFeature`: `getRelevantKey` of every stratifier
in order (with side effects threaded). -/
def keyPathM (st : HandlerState) (f : EncompassedData) :
    List (Option SKey) × HandlerState :=
  (List.range st.ods.length).foldl
    (fun acc level =>
      let r := getRelevantKeyM acc.2 level f
      (acc.1 ++ [r.1], r.2))
    ([], st)

/-- `CounterOutputDataHandler.countFeature`: drill down through the table
along the stratifiers' relevant keys and increment; also logged as a ghost
event. -/
def countFeature (st : HandlerState) (f : EncompassedData) : HandlerState :=
  let r := keyPathM st f
  { r.2 with table := r.2.table.increment r.1,
             countsLog := r.2.countsLog ++ [(f.idx, r.1)] }

/-- `CounterOutputDataHandler.onNonCountedEncompassedFeature`. -/
def onNonCountedEncompassedFeature (cfg : RunConfig) (st : HandlerState)
    (f : EncompassedData) : HandlerState :=
  if cfg.trackAllEncompassed then
    let st := (List.range st.ods.length).foldl
      (fun st level =>
        match st.ods.get? level with
        | some (s, _) =>
            if s.cls = .encompassedFeatureODS then attemptAddKeyH st level (some f.skey)
            else st
        | none => st) st
    let st :=
      if cfg.writeIncrementally = ENCOMPASSED_DATA then
        { st with encompassedToWrite := setAdd st.encompassedToWrite f.skey }
      else st
    if cfg.countAllEncompassed then countFeature st f else st
  else st

/-- `OutputDataStratifier.onNewEncompassingFeature` as dispatched by the
handler loop: a no-op for every class except `EncompassingFeatureODS`, which
asserts that the feature's location key has not been seen before (the
assertion failure — Python's abort — is recorded in `dupAssertTripped`) and
then adds it to its key space. -/
def odsOnNewEncompassingFeature (st : HandlerState) (level : ℕ)
    (gOpt : Option EncompassingData) : HandlerState :=
  match st.ods.get? level with
  | some (s, _) =>
      if s.cls = .encompassingFeatureODS then
        if gOpt.map (·.skey) ∈ st.allKeysAt level then
          { st with dupAssertTripped := true }
        else attemptAddKeyH st level (gOpt.map (·.skey))
      else st
  | none => st

/-- `CounterOutputDataHandler.onNewEncompassingFeature`: under
`trackAllEncompassing`, dispatch to every stratifier and record the feature
for incremental writing. -/
def onNewEncompassingFeature (cfg : RunConfig) (st : HandlerState)
    (gOpt : Option EncompassingData) : HandlerState :=
  if cfg.trackAllEncompassing then
    let st := (List.range st.ods.length).foldl
      (fun st level => odsOnNewEncompassingFeature st level gOpt) st
    if cfg.writeIncrementally = ENCOMPASSING_DATA then
      { st with encompassingToWrite := setAdd st.encompassingToWrite (gOpt.map (·.skey)) }
    else st
  else st

/-- The `nontolerantAmbiguityHandling` flag computed by
`createOutputDataWriter`. -/
def HandlerState.nontolerant (st : HandlerState) : Bool :=
  st.ods.any (fun p => p.1.ambiguityHandling ≠ .tolerate)

/-- The `ignoreFeature` check of the exiting branch: `getRelevantKey` of every
`ignore`-handling stratifier (side effects threaded, as in the source loop
over `ignoreAmbiguityODSs`). -/
def ignoreCheckM (st : HandlerState) (f : EncompassedData) : Bool × HandlerState :=
  (List.range st.ods.length).foldl
    (fun acc level =>
      match acc.2.ods.get? level with
      | some (s, _) =>
          if s.ambiguityHandling = .ignore then
            let r := getRelevantKeyM acc.2 level f
            (acc.1 ∨ r.1 = none, r.2)
          else acc
      | none => acc)
    (false, st)

/-- `CounterOutputDataHandler.onEncompassedFeatureInEncompassingFeature`. -/
def onEncompassedFeatureInEncompassingFeature (cfg : RunConfig)
    (st : HandlerState) (f : EncompassedData) (gOpt : Option EncompassingData)
    (exitingEncompassment : Bool) : HandlerState :=
  let st :=
    if cfg.writeIncrementally = ENCOMPASSING_DATA then
      { st with encompassingToWrite := setAdd st.encompassingToWrite (gOpt.map (·.skey)) }
    else st
  let st :=
    if exitingEncompassment then st
    else
      match gOpt with
      | some g => updateODSs f g st
      | none => st
  if st.nontolerant = false then
    if exitingEncompassment = false then countFeature st f
    else if cfg.writeIncrementally = ENCOMPASSED_DATA then
      { st with encompassedToWrite := setAdd st.encompassedToWrite f.skey }
    else st
  else if exitingEncompassment then
    let r := ignoreCheckM st f
    if r.1 then onNonCountedEncompassedFeature cfg r.2 f
    else
      let st := countFeature r.2 f
      if cfg.writeIncrementally = ENCOMPASSED_DATA then
        { st with encompassedToWrite := setAdd st.encompassedToWrite f.skey }
      else st
  else st

/-! ### The table writer (`OutputDataWriter`) -/

/-- `getSortedKeysForOutput`: the base version sorts the key space (appending
the `None` sentinel when present); `RelativePosODS` overrides it using the
used-position flags; `StrandComparisonODS` returns `[True, False]` (plus
`None` when present). -/
def getSortedKeysForOutput (s : Stratifier) (os : ODSState) : List (Option SKey) :=
  match s.cls with
  | .relativePosODS =>
      let outputKeys : List ℚ :=
        if os.usedHalfPosition ∧ os.usedIntPosition then
          s.relativePosIntPositions ++ s.relativePosHalfPositions
        else if os.usedHalfPosition then s.relativePosHalfPositions
        else s.relativePosIntPositions
      (pySort (fun p q => decide (p < q)) outputKeys).map (fun q => some (.rat q)) ++
        (if s.ambiguityHandling = .record then [none] else [])
  | .strandComparisonODS =>
      [some (.bool true), some (.bool false)] ++
        (if none ∈ os.allKeys then [none] else [])
  | _ =>
      if none ∈ os.allKeys then
        (pySort SKey.pyLt (os.allKeys.filterMap id)).map some ++ [none]
      else (pySort SKey.pyLt (os.allKeys.filterMap id)).map some

/-- `getKeysForOutput` with the `sortedKeys` cache: the first call computes
and caches; later calls return the cached list even if the key space has
grown since. -/
def getKeysForOutputM (st : HandlerState) (level : ℕ) :
    List (Option SKey) × HandlerState :=
  match st.ods.get? level with
  | none => ([], st)
  | some (s, os) =>
      match os.sortedKeysCache with
      | some ks => (ks, st)
      | none =>
          let ks := getSortedKeysForOutput s os
          let upd := fun (p : Stratifier × ODSState) =>
            (p.1, { p.2 with sortedKeysCache := some ks })
          (ks, { st with ods := listModify upd level st.ods })

/-- The output key lists of all levels from `startLevel` on, in level order
(the order in which a recursive `writeDataRows` walk first calls
`getKeysForOutput` at each level), caches threaded. -/
def writerKeyListsFrom (st : HandlerState) (startLevel : ℕ) :
    List (List (Option SKey)) × HandlerState :=
  ((List.range st.ods.length).drop startLevel).foldl
    (fun acc level =>
      let r := getKeysForOutputM acc.2 level
      (acc.1 ++ [r.1], r.2))
    ([], st)

/-- The data rows `writeDataRows` produces for a (sub)table, given the output
key lists of the remaining levels: at each non-terminal level one block of
rows per key, at the terminal level a single row holding the count columns. -/
def rowsFrom : List (List (Option SKey)) → ODict → List Row
  | [], _ => []
  | [lastKeys], t => [{ path := [], counts := lastKeys.map (fun k => t.countAt k) }]
  | ks :: rest, t =>
      (ks.map (fun k =>
        (rowsFrom rest (t.child k)).map (fun r => { r with path := k :: r.path }))).flatten

/-- `OutputDataWriter.writeFeature` for a leading encompassed/encompassing
feature stratifier (non-`.bed` path): one block of rows for that feature's
subtree, the feature's own key in the first column.  (With a single
stratifier, Python's `writeDataRows(…, 1, …)` raises `IndexError`; here the
block is empty.) -/
def writeFeatureH (st : HandlerState) (fk : Option SKey) : HandlerState :=
  let r := writerKeyListsFrom st 1
  let rows := (rowsFrom r.1 (r.2.table.child fk)).map
      (fun row => { row with path := fk :: row.path })
  { r.2 with incrementalRows := r.2.incrementalRows ++ rows }

/-- Python `<` on the keys held in `encompassedFeaturesToWrite`
(`EncompassedData.__lt__`). -/
def encompassedKeyLt : SKey → SKey → Bool
  | .encompassedKey c p _, .encompassedKey c' p' _ =>
      strLt c c' ∨ (c = c' ∧ p < p')
  | _, _ => false

/-- Python `<` on `Option` encompassing keys (`None` is not comparable in
Python and never reaches a sort in a run that completes; `none` sorts first
here). -/
def encompassingKeyLt : Option SKey → Option SKey → Bool
  | some (.encompassingKey c s e _), some (.encompassingKey c' s' e' _) =>
      strLt c c' ∨ (c = c' ∧ (s < s' ∨ (s = s' ∧ e < e')))
  | none, some _ => true
  | _, _ => false

/-- The encompassed-feature flush of `writeWaitingFeatures`: write each
waiting feature's rows in sorted order, popping it from the table root, then
clear the waiting set. -/
def flushEncompassedBatch (st : HandlerState) : HandlerState :=
  let sortedKeys := pySort encompassedKeyLt st.encompassedToWrite
  let st := sortedKeys.foldl
    (fun st fk =>
      let st := writeFeatureH st (some fk)
      { st with table := st.table.popRoot (some fk) }) st
  { st with encompassedToWrite := [] }

/-- The encompassing-feature flush of `writeWaitingFeatures`. -/
def flushEncompassingBatch (st : HandlerState) : HandlerState :=
  let sortedKeys := pySort encompassingKeyLt st.encompassingToWrite
  let st := sortedKeys.foldl
    (fun st gk =>
      let st := writeFeatureH st gk
      { st with table := st.table.popRoot gk }) st
  { st with encompassingToWrite := [] }

/-- `CounterOutputDataHandler.writeWaitingFeatures`: flush whichever waiting
set the incremental-writing mode keeps. -/
def writeWaitingFeatures (cfg : RunConfig) (st : HandlerState) : HandlerState :=
  let st :=
    if cfg.writeIncrementally = ENCOMPASSED_DATA then flushEncompassedBatch st else st
  if cfg.writeIncrementally = ENCOMPASSING_DATA then flushEncompassingBatch st else st

/-! ### Events and their dispatch -/

/-- The classification events the merge-join engine sends to the handler
(`overlap` is `onEncompassedFeatureInEncompassingFeature`), plus the
`writeWaitingFeatures` flushes it requests. -/
inductive TraceEvent where
  | overlap (f : EncompassedData) (g : Option EncompassingData)
      (exitingEncompassment : Bool)
  | nonCounted (f : EncompassedData)
  | newEncompassing (g : Option EncompassingData)
  | flushWaiting
deriving DecidableEq, Repr

/-- Dispatch one event to the handler. -/
def processEvent (cfg : RunConfig) (st : HandlerState) : TraceEvent → HandlerState
  | .overlap f g exiting => onEncompassedFeatureInEncompassingFeature cfg st f g exiting
  | .nonCounted f => onNonCountedEncompassedFeature cfg st f
  | .newEncompassing g => onNewEncompassingFeature cfg st g
  | .flushWaiting => writeWaitingFeatures cfg st

/-- Fold a whole event trace through the handler. -/
def processTrace (cfg : RunConfig) (st : HandlerState) (trace : List TraceEvent) :
    HandlerState :=
  trace.foldl (processEvent cfg) st

/-! ### The merge-join engine (`ThisInThatCounter`, `Counter.py`)

The engine is embedded as fuel-indexed structural recursion (every loop of the
source strictly shrinks the measure `engineMeasure`, so any fuel of at least
that measure runs each loop to completion).  The handler is threaded through
because one flush condition reads the size of its waiting set; every emitted
event is also logged in `trace`. -/

/-- The cursor state of `ThisInThatCounter`. -/
structure EngineState where
  encompassedRest : List EncompassedData
  encompassingRest : List EncompassingData
  currentEncompassedFeature : Option EncompassedData
  currentEncompassingFeature : Option EncompassingData
  previousEncompassingFeature : Option EncompassingData
  confirmedEncompassedFeatures : List EncompassedData
  isCurrentEncompassedFeatureActuallyEncompassed : Bool
  lastNonEncompassedFeature : Option EncompassedData

/-- The combined simulation state: engine cursors, handler state, event log. -/
structure Sim where
  eng : EngineState
  hst : HandlerState
  trace : List TraceEvent

/-- Send an event to the handler and log it. -/
def emit (cfg : RunConfig) (sim : Sim) (e : TraceEvent) : Sim :=
  { sim with hst := processEvent cfg sim.hst e, trace := sim.trace ++ [e] }

/-- `isEncompassedFeatureWithinEncompassingFeature`. -/
def isWithin (cfg : RunConfig) (f : EncompassedData) (g : EncompassingData) : Bool :=
  decide (qSub g.startPos cfg.encompassingFeatureExtraRadius ≤ f.position) &&
  decide (f.position ≤ qAdd g.endPos cfg.encompassingFeatureExtraRadius)

/-- The exit condition of `isExitingEncompassment`, against the new current
encompassing feature `g`. -/
def exitsEncompassment (cfg : RunConfig) (f : EncompassedData)
    (g : EncompassingData) : Bool :=
  decide (f.position < qSub g.startPos cfg.encompassingFeatureExtraRadius) ||
  decide (f.chromosome ≠ g.chromosome)

/-- The list comprehension of `checkConfirmedEncompassedFeatures`: filter the
confirmed features through `isExitingEncompassment`, which emits an exiting
event (against the previous encompassing feature) for each removed feature. -/
def checkConfirmedFilter (cfg : RunConfig) (g : EncompassingData) :
    List EncompassedData → Sim → List EncompassedData × Sim
  | [], sim => ([], sim)
  | f :: rest, sim =>
      if exitsEncompassment cfg f g then
        let sim := emit cfg sim (.overlap f sim.eng.previousEncompassingFeature true)
        checkConfirmedFilter cfg g rest sim
      else
        let r := checkConfirmedFilter cfg g rest sim
        (f :: r.1, r.2)

/-- `ThisInThatCounter.checkConfirmedEncompassedFeatures`. -/
def checkConfirmedEncompassedFeatures (cfg : RunConfig) (sim : Sim) : Sim :=
  let sim :=
    match sim.eng.currentEncompassingFeature with
    | none =>
        let sim := sim.eng.confirmedEncompassedFeatures.foldl
          (fun sim f => emit cfg sim (.overlap f sim.eng.previousEncompassingFeature true))
          sim
        { sim with eng := { sim.eng with confirmedEncompassedFeatures := [] } }
    | some g =>
        let r := checkConfirmedFilter cfg g sim.eng.confirmedEncompassedFeatures sim
        let sim := { r.2 with eng := { r.2.eng with confirmedEncompassedFeatures := r.1 } }
        r.1.foldl
          (fun sim f =>
            if isWithin cfg f g then emit cfg sim (.overlap f (some g) false) else sim)
          sim
  if cfg.writeIncrementally ≠ 0 then emit cfg sim .flushWaiting else sim

/-- The cursor advance of `readNextEncompassingFeature`: pop the next
encompassing feature (or hit EOF), reporting it to the handler unless this is
the very first one. -/
def advanceEncompassingCursor (cfg : RunConfig) (sim : Sim) (prevIsSome : Bool) : Sim :=
  match sim.eng.encompassingRest with
  | [] => { sim with eng := { sim.eng with currentEncompassingFeature := none } }
  | g :: rest =>
      let sim' : Sim := { sim with eng :=
        { sim.eng with currentEncompassingFeature := some g, encompassingRest := rest } }
      if prevIsSome then emit cfg sim' (.newEncompassing (some g)) else sim'

/-- `ThisInThatCounter.readNextEncompassingFeature`. -/
def readNextEncompassingFeature (cfg : RunConfig) (sim : Sim) : Sim :=
  let prev := sim.eng.currentEncompassingFeature
  let sim := { sim with eng := { sim.eng with previousEncompassingFeature := prev } }
  let sim := advanceEncompassingCursor cfg sim prev.isSome
  if prev.isSome then checkConfirmedEncompassedFeatures cfg sim else sim

/-- The cursor advance of `readNextEncompassedFeature`: pop the next
encompassed feature or hit EOF. -/
def advanceEncompassedCursor (sim : Sim) : Sim :=
  match sim.eng.encompassedRest with
  | [] => { sim with eng := { sim.eng with currentEncompassedFeature := none } }
  | x :: rest =>
      { sim with eng :=
        { sim.eng with currentEncompassedFeature := some x, encompassedRest := rest } }

/-- `ThisInThatCounter.readNextEncompassedFeature`.  (When the previous
feature was never confirmed it is reported to the non-counted path, possibly
after a defensive flush of a large waiting set; the Python comparison
`lastNonEncompassedFeature < current` would raise when the former is `None`,
a state in which that branch is modelled as not flushing.) -/
def readNextEncompassedFeature (cfg : RunConfig) (sim : Sim) : Sim :=
  let sim :=
    match sim.eng.currentEncompassedFeature with
    | some f =>
        if sim.eng.isCurrentEncompassedFeatureActuallyEncompassed = false then
          let sim :=
            if decide (cfg.writeIncrementally = ENCOMPASSED_DATA) &&
               decide (sim.hst.encompassedToWrite.length > 10000) &&
               (match sim.eng.lastNonEncompassedFeature with
                | some l => l.pyLt f
                | none => false) then
              emit cfg sim .flushWaiting
            else sim
          let sim := emit cfg sim (.nonCounted f)
          { sim with eng := { sim.eng with lastNonEncompassedFeature := some f } }
        else sim
    | none => sim
  let sim := { sim with eng :=
    { sim.eng with isCurrentEncompassedFeatureActuallyEncompassed := false } }
  advanceEncompassedCursor sim

/-- `ThisInThatCounter.reconcileChromosomes`. -/
def reconcileChromosomes (cfg : RunConfig) : ℕ → Sim → Sim
  | 0, sim => sim
  | fuel + 1, sim =>
      match sim.eng.currentEncompassedFeature, sim.eng.currentEncompassingFeature with
      | some f, some g =>
          if f.chromosome ≠ g.chromosome then
            if strLt f.chromosome g.chromosome then
              reconcileChromosomes cfg fuel (readNextEncompassedFeature cfg sim)
            else reconcileChromosomes cfg fuel (readNextEncompassingFeature cfg sim)
          else sim
      | _, _ => sim

/-- `ThisInThatCounter.isEncompassedFeaturePastEncompassingFeature` (the outer
loop guarantees a current encompassing feature exists when this is asked). -/
def isEncompassedFeaturePastEncompassingFeature (cfg : RunConfig) (sim : Sim) : Bool :=
  match sim.eng.currentEncompassedFeature with
  | none => true
  | some f =>
      match sim.eng.currentEncompassingFeature with
      | none => true
      | some g =>
          decide (f.position > qAdd g.endPos cfg.encompassingFeatureExtraRadius) ||
          decide (f.chromosome ≠ g.chromosome)

/-- The inner scan of `ThisInThatCounter.count`: confirm and advance the
encompassed cursor until it passes the current encompassing feature. -/
def innerLoop (cfg : RunConfig) : ℕ → Sim → Sim
  | 0, sim => sim
  | fuel + 1, sim =>
      if isEncompassedFeaturePastEncompassingFeature cfg sim then sim
      else
        let sim :=
          match sim.eng.currentEncompassedFeature, sim.eng.currentEncompassingFeature with
          | some f, some g =>
              if isWithin cfg f g then
                let sim := emit cfg sim (.overlap f (some g) false)
                { sim with eng :=
                  { sim.eng with
                    confirmedEncompassedFeatures :=
                      sim.eng.confirmedEncompassedFeatures ++ [f],
                    isCurrentEncompassedFeatureActuallyEncompassed := true } }
              else sim
          | _, _ => sim
        innerLoop cfg fuel (readNextEncompassedFeature cfg sim)

/-- The outer loop of `ThisInThatCounter.count`; `n` bounds the inner loops. -/
def outerLoop (cfg : RunConfig) (n : ℕ) : ℕ → Sim → Sim
  | 0, sim => sim
  | fuel + 1, sim =>
      match sim.eng.currentEncompassingFeature with
      | none => sim
      | some _ =>
          let sim := innerLoop cfg n sim
          let sim := readNextEncompassingFeature cfg sim
          let sim := reconcileChromosomes cfg n sim
          outerLoop cfg n fuel sim

/-- The final drain of remaining encompassed features. -/
def drainEncompassed (cfg : RunConfig) : ℕ → Sim → Sim
  | 0, sim => sim
  | fuel + 1, sim =>
      match sim.eng.currentEncompassedFeature with
      | none => sim
      | some _ => drainEncompassed cfg fuel (readNextEncompassedFeature cfg sim)

/-- `ThisInThatCounter.count` (file writing aside): reconcile, loop over
encompassing features, drain, final flush in incremental mode. -/
def countRun (cfg : RunConfig) (n : ℕ) (sim : Sim) : Sim :=
  let sim :=
    if sim.eng.currentEncompassedFeature = none ∨
       sim.eng.currentEncompassingFeature = none then sim
    else reconcileChromosomes cfg n sim
  let sim := outerLoop cfg n n sim
  let sim := drainEncompassed cfg n sim
  if cfg.writeIncrementally ≠ 0 then emit cfg sim .flushWaiting else sim

/-- `createOutputDataWriter`: constructing the `OutputDataWriter` computes the
headers, which calls `getKeysForOutput` on the terminal stratifier and hence
freezes its `sortedKeys` cache at setup time. -/
def createOutputDataWriterH (st : HandlerState) : HandlerState :=
  if st.ods.length = 0 then st
  else (getKeysForOutputM st (st.ods.length - 1)).2

/-- `ThisInThatCounter.__init__` (after the sortedness check): read the first
feature of each stream, set up the handler and writer, and report the first
encompassing feature to the handler. -/
def initSim (cfg : RunConfig) (stratifiers : List Stratifier)
    (encompassed : List EncompassedData)
    (encompassing : List EncompassingData) : Sim :=
  let sim : Sim :=
    { eng :=
      { encompassedRest := encompassed, encompassingRest := encompassing,
        currentEncompassedFeature := none, currentEncompassingFeature := none,
        previousEncompassingFeature := none, confirmedEncompassedFeatures := [],
        isCurrentEncompassedFeatureActuallyEncompassed := false,
        lastNonEncompassedFeature := none },
      hst := createOutputDataWriterH (initialHandlerState stratifiers),
      trace := [] }
  let sim := readNextEncompassedFeature cfg sim
  let sim := readNextEncompassingFeature cfg sim
  emit cfg sim (.newEncompassing sim.eng.currentEncompassingFeature)

/-- A fuel bound sufficient for every loop of the run. -/
def runFuel (encompassed : List EncompassedData)
    (encompassing : List EncompassingData) : ℕ :=
  encompassed.length + encompassing.length + 2

/-- A complete counter run: construction followed by `count`. -/
def runCounter (cfg : RunConfig) (stratifiers : List Stratifier)
    (encompassed : List EncompassedData)
    (encompassing : List EncompassingData) : Sim :=
  countRun cfg (runFuel encompassed encompassing)
    (initSim cfg stratifiers encompassed encompassing)

/-! ### The two output modes -/

/-- One line of the output file, abstracted: the header line or a data row. -/
inductive OutLine where
  | header (names : List String) (lastLevelKeys : List (Option SKey))
  | data (r : Row)
deriving DecidableEq, Repr

/-- The count held by the root (for the stratifier-less base case). -/
def ODict.rootCount : ODict → ℕ
  | .leaf n => n
  | .node _ => 0

/-- `OutputDataWriter.writeResults`: the batch-mode output, a header line
followed by the recursive `writeDataRows` walk of the whole table. -/
def writeResults (st : HandlerState) : List OutLine :=
  if st.ods.length = 0 then [OutLine.data { path := [], counts := [st.table.rootCount] }]
  else
    let r := writerKeyListsFrom st 0
    OutLine.header ((st.ods.dropLast).map (·.1.outputName)) (r.1.getLastD [])
      :: (rowsFrom r.1 r.2.table).map OutLine.data

/-- The incremental-mode output: the rows written by the flushes, in order
(`finishIndividualFeatureWriting` only closes the file; no header is ever
written in this mode). -/
def incrementalOutput (st : HandlerState) : List OutLine :=
  st.incrementalRows.map OutLine.data

/-! ### Trace and log measures used by the claims -/

/-- Is this any overlap event for the feature `i`? -/
def isOverlapFor (i : ℕ) : TraceEvent → Bool
  | .overlap f _ _ => f.idx = i
  | _ => false

/-- `currentEncompassingFeature = None` forces an emptied confirmed list (the
advance that clears the cursor always drains the confirmed features first). -/
def NoneImpliesDrained (sim : Sim) : Prop :=
  sim.eng.currentEncompassingFeature = none →
    sim.eng.confirmedEncompassedFeatures = []

/-- The engine state components the outer-loop measure depends on. -/
def encompassingKey (sim : Sim) :
    Option EncompassingData × List EncompassingData :=
  (sim.eng.currentEncompassingFeature, sim.eng.encompassingRest)

/-! ### The sortedness precondition (`checkForSortedInput`) -/

/-- One line of an input stream as the sort check sees it: first column
(chromosome) and the two numeric coordinate columns. -/
structure SortRecord where
  col1 : String
  col2 : ℚ
  col3 : ℚ
deriving DecidableEq, Repr

/-- The ordering the external sort collaborator checks.  Modelled from the
spec: `sort -k1,1 -k2,2n -k3,3n -s -c` succeeds exactly when consecutive lines
are non-decreasing by column 1 (lexicographic) then columns 2–3 (numeric);
the GNU `sort` binary itself is outside the repository. -/
def sortRecordLe (a b : SortRecord) : Bool :=
  strLt a.col1 b.col1 ∨
    (a.col1 = b.col1 ∧ (a.col2 < b.col2 ∨ (a.col2 = b.col2 ∧ a.col3 ≤ b.col3)))

/-- Whether a stream passes the sort check (consecutive lines in order). -/
def isSortedStream : List SortRecord → Bool
  | [] => true
  | [_] => true
  | a :: b :: rest => sortRecordLe a b && isSortedStream (b :: rest)

/-- `ThisInThatCounter.checkForSortedInput`: check the encompassed stream
first, then the encompassing stream, each only when its flag is set; a failed
check prints and calls `quit()`. -/
def checkForSortedInput (encompassedStream encompassingStream : List SortRecord)
    (checkForSortedFiles : Bool × Bool) : Except String Unit :=
  if checkForSortedFiles.1 = true ∧ isSortedStream encompassedStream = false then
    .error "Encompassed features file is not properly sorted."
  else if checkForSortedFiles.2 = true ∧ isSortedStream encompassingStream = false then
    .error "Encompassing features file is not properly sorted."
  else .ok ()

/-- The externally visible resource acquisitions of `ThisInThatCounter.__init__`. -/
inductive InitEffect where
  | openEncompassedFile
  | openEncompassingFile
  | openOutputFile
deriving DecidableEq, Repr

/-- The construction sequence of `ThisInThatCounter.__init__` at the level of
its effects: the sortedness check runs before anything else; only if it
passes are the two input files opened, the first records read, and the output
data handler and writer set up (opening the output file).  Returns the
effects performed and `some error` when construction dies in the check. -/
def thisInThatCounterInit (encompassedStream encompassingStream : List SortRecord)
    (checkForSortedFiles : Bool × Bool) : List InitEffect × Option String :=
  match checkForSortedInput encompassedStream encompassingStream checkForSortedFiles with
  | .error e => ([], some e)
  | .ok _ =>
      ([.openEncompassedFile, .openEncompassingFile, .openOutputFile], none)

/-! ### The `addFeatureFractionStratifier` call arity -/

/-- The parameters of `FeatureFractionODS.__init__` after `self`, in order,
each with whether it has a default value (none do). -/
def featureFractionODSInitParams : List (String × Bool) :=
  [("ambiguityHandling", false), ("outputDataDictionaries", false),
   ("outputName", false), ("fractionNum", false), ("flankingBinSize", false),
   ("flankingBinNum", false)]

/-- The number of positional arguments
`CounterOutputDataHandler.addFeatureFractionStratifier` passes to
`FeatureFractionODS(...)`: ambiguity handling, the new dictionaries, the
output name, `fractionNum`, `flankingBinSize`. -/
def addFeatureFractionStratifierArgCount : ℕ := 5

/-- Python positional call binding: the call succeeds exactly when it does
not overflow the parameter list and every parameter left unbound has a
default; otherwise it raises `TypeError`. -/
def pythonPositionalCallOk (params : List (String × Bool)) (n : ℕ) : Bool :=
  decide (n ≤ params.length) && (params.drop n).all (fun p => p.2)

/-! ### Key-space / table operations cited by the invariant claim -/

/-- `OutputDataStratifier.removeKey`: removes the key from the stratifier's
`allKeys` set — and from nothing else; the output data dictionaries keep the
key and its subtree. -/
def removeKeyH (st : HandlerState) (level : ℕ) (k : Option SKey) : HandlerState :=
  { st with
    ods := listModify (fun p => (p.1, { p.2 with allKeys := p.2.allKeys.filter (· ≠ k) }))
             level st.ods }

/-- All table nodes at a given depth ("every branch" at a stratifier's level). -/
def ODict.nodesAtDepth : ℕ → ODict → List ODict
  | 0, t => [t]
  | _ + 1, .leaf _ => []
  | l + 1, .node entries => (entries.map (fun e => ODict.nodesAtDepth l e.2)).flatten

/-- The key-space/table invariant of the spec: at every stratification level,
the stratifier's key space is a subset of the keys materialized in every
dictionary at that level. -/
def keySubsetInv (st : HandlerState) : Prop :=
  ∀ level, level < st.ods.length →
    ∀ t ∈ st.table.nodesAtDepth level, ∀ k ∈ st.allKeysAt level, k ∈ t.keys

/-! ### The concrete relative-position scenario (spec §8)

Two single-base encompassed features (`chr1 100 101` and `chr1 200 201`), one
encompassing feature `chr1 50 150 +`, no padding, a centred relative-position
stratifier (followed by the placeholder stratifier that gives the final
count-only level, as in the templates). -/

/-- The encompassed feature at position 100 (`chr1 100 101`). -/
def scenarioEncompassed1 : EncompassedData :=
  EncompassedData.ofFields 0 "chr1" 100 101 '+'

/-- The encompassed feature at position 200 (`chr1 200 201`). -/
def scenarioEncompassed2 : EncompassedData :=
  EncompassedData.ofFields 1 "chr1" 200 201 '+'

/-- The encompassing feature `chr1 50 150 +`. -/
def scenarioEncompassing : EncompassingData :=
  EncompassingData.ofFields "chr1" 50 150 '+'

/-- The default configuration: no padding, batch writing, no tracking. -/
def scenarioConfig : RunConfig :=
  { encompassingFeatureExtraRadius := 0, writeIncrementally := 0,
    trackAllEncompassing := false, trackAllEncompassed := false,
    countAllEncompassed := false }

/-- The scenario run with a centred relative-position stratifier. -/
def scenarioRun : Sim :=
  runCounter scenarioConfig
    [RelativePosODS .tolerate scenarioEncompassing true 0 "Relative_Pos",
     PlaceholderODS .tolerate "Counts"]
    [scenarioEncompassed1, scenarioEncompassed2] [scenarioEncompassing]

/-- The scenario run with a leading encompassed-feature identity stratifier
and tracking of non-encompassed features enabled. -/
def scenarioTrackedRun : Sim :=
  runCounter { scenarioConfig with trackAllEncompassed := true }
    [EncompassedFeatureODS "Encompassed_Feature",
     RelativePosODS .tolerate scenarioEncompassing true 0 "Relative_Pos",
     PlaceholderODS .tolerate "Counts"]
    [scenarioEncompassed1, scenarioEncompassed2] [scenarioEncompassing]

/-- The same identity-keyed run without tracking. -/
def scenarioUntrackedRun : Sim :=
  runCounter scenarioConfig
    [EncompassedFeatureODS "Encompassed_Feature",
     RelativePosODS .tolerate scenarioEncompassing true 0 "Relative_Pos",
     PlaceholderODS .tolerate "Counts"]
    [scenarioEncompassed1, scenarioEncompassed2] [scenarioEncompassing]

/-- Is this output line a data row with a count other than a single 0? -/
def isNonZeroDataRow : OutLine → Bool
  | .data r => decide (r.counts ≠ [0])
  | _ => false

/-! ### A concrete run with duplicate encompassing features -/

/-- An encompassing feature appearing twice in the input. -/
def dupEncompassing : EncompassingData := EncompassingData.ofFields "chr1" 10 20 '+'

/-- An encompassed feature inside it. -/
def dupEncompassed : EncompassedData := EncompassedData.ofFields 0 "chr1" 15 16 '+'

/-- A run over the duplicated input with the default configuration (no
tracking of encompassing features) and no encompassing-feature stratifier. -/
def dupRunDefault : Sim :=
  runCounter scenarioConfig [PlaceholderODS .tolerate "Counts"]
    [dupEncompassed] [dupEncompassing, dupEncompassing]

/-- The same duplicated input with `trackAllEncompassing` and an
encompassing-feature stratifier. -/
def dupRunTracking : Sim :=
  runCounter { scenarioConfig with trackAllEncompassing := true }
    [EncompassingFeatureODS .tolerate "Encompassing_Feature",
     PlaceholderODS .tolerate "Counts"]
    [dupEncompassed] [dupEncompassing, dupEncompassing]

/-! ## Theorems

First the bridges between the kernel-reducible arithmetic wrappers and the
standard `ℚ` operations, then general lemmas, then one theorem per claim. -/

theorem qAdd_eq (a b : ℚ) : qAdd a b = a + b := by
  rw [qAdd, Rat.divInt_eq_div]
  conv_rhs => rw [← Rat.num_div_den a, ← Rat.num_div_den b]
  have ha : (a.den : ℚ) ≠ 0 := Nat.cast_ne_zero.mpr a.den_nz
  have hb : (b.den : ℚ) ≠ 0 := Nat.cast_ne_zero.mpr b.den_nz
  push_cast
  field_simp

theorem qSub_eq (a b : ℚ) : qSub a b = a - b := by
  rw [qSub, Rat.divInt_eq_div]
  conv_rhs => rw [← Rat.num_div_den a, ← Rat.num_div_den b]
  have ha : (a.den : ℚ) ≠ 0 := Nat.cast_ne_zero.mpr a.den_nz
  have hb : (b.den : ℚ) ≠ 0 := Nat.cast_ne_zero.mpr b.den_nz
  push_cast
  field_simp
  ring

theorem qMul_eq (a b : ℚ) : qMul a b = a * b := by
  rw [qMul, Rat.divInt_eq_div]
  conv_rhs => rw [← Rat.num_div_den a, ← Rat.num_div_den b]
  have ha : (a.den : ℚ) ≠ 0 := Nat.cast_ne_zero.mpr a.den_nz
  have hb : (b.den : ℚ) ≠ 0 := Nat.cast_ne_zero.mpr b.den_nz
  push_cast
  field_simp

theorem qDiv_eq (a b : ℚ) : qDiv a b = a / b := by
  rcases eq_or_ne b 0 with hb0 | hb0
  · subst hb0
    simp [qDiv, Rat.divInt_eq_div]
  · rw [qDiv, Rat.divInt_eq_div]
    conv_rhs => rw [← Rat.num_div_den a, ← Rat.num_div_den b]
    have ha : (a.den : ℚ) ≠ 0 := Nat.cast_ne_zero.mpr a.den_nz
    have hb : (b.num : ℚ) ≠ 0 := by exact_mod_cast Rat.num_ne_zero.mpr hb0
    have hbd : (b.den : ℚ) ≠ 0 := Nat.cast_ne_zero.mpr b.den_nz
    push_cast
    field_simp

theorem qOfInt_eq (n : ℤ) : qOfInt n = (n : ℚ) := by
  rw [qOfInt, Rat.divInt_eq_div]
  simp

theorem qOfNat_eq (n : ℕ) : qOfNat n = (n : ℚ) := by
  rw [qOfNat, Rat.divInt_eq_div]
  simp

theorem qHalf_eq : qHalf = 1 / 2 := by
  rw [qHalf, Rat.divInt_eq_div]
  norm_num

/-- C10: for every feature and stratifier class, the `isAmbiguous` flag of the
`stratifierData` entry is monotone — a single `updateStratifierData` call
always stores the newest value in the value slot, and once the flag is `true`
every later call (any non-empty sequence of updates) leaves it `true`. -/
theorem stratifierData_ambiguity_monotone (e : StratDataEntry) (v : SKey)
    (vs : List SKey) :
    (updateStratifierDataEntry e v).1 = some v ∧
    (e.2 = true → (vs.foldl updateStratifierDataEntry e).2 = true) := by
  constructor
  · rfl
  · intro he
    induction vs generalizing e with
    | nil => exact he
    | cons w ws ih =>
        apply ih
        unfold updateStratifierDataEntry
        split
        · rfl
        · exact he

/-- Witness for `stratifierData_ambiguity_monotone` at a concrete entry. -/
theorem stratifierData_ambiguity_monotone_witness :
    (updateStratifierDataEntry (some (.int 3), true) (.int 5)).1 = some (.int 5) ∧
    (([.int 7, .int 3].foldl updateStratifierDataEntry
        ((some (.int 3), true) : StratDataEntry)).2 = true) :=
  ⟨(stratifierData_ambiguity_monotone (some (.int 3), true) (.int 5) [.int 7, .int 3]).1,
   (stratifierData_ambiguity_monotone (some (.int 3), true) (.int 5) [.int 7, .int 3]).2 rfl⟩

/-- C9: `addFeatureFractionStratifier` passes five positional arguments to
`FeatureFractionODS.__init__`, which has six parameters without defaults, so
the call never binds and every invocation raises `TypeError`. -/
theorem addFeatureFractionStratifier_always_raises_TypeError :
    pythonPositionalCallOk featureFractionODSInitParams
      addFeatureFractionStratifierArgCount = false ∧
    (featureFractionODSInitParams.filter (fun p => p.2 = false)).length = 6 ∧
    addFeatureFractionStratifierArgCount = 5 := by
  refine ⟨rfl, rfl, rfl⟩

/-- C6: for the encompassing feature parsed from `chr1 0 9` (`+` strand) and a
fractional-bin stratifier with `fractionNum = 2` and no flanking bins, the
encompassed feature at position 2 is assigned bin 1 and the one at position 7
bin 2; the relative position is measured from `startPos` on the `+` strand and
from `endPos` otherwise, so that for a `-`-strand feature the bin assignment
equals that of the `+`-strand feature at the mirrored position. -/
theorem featureFraction_scenario_and_strand_flip :
    (featureFractionUpdate 2 0 0
      { idx := 0, chromosome := "chr1", position := 2, strand := '+' }
      (EncompassingData.ofFields "chr1" 0 9 '+') = .int 1) ∧
    (featureFractionUpdate 2 0 0
      { idx := 1, chromosome := "chr1", position := 7, strand := '+' }
      (EncompassingData.ofFields "chr1" 0 9 '+') = .int 2) ∧
    (∀ (f : EncompassedData) (g : EncompassingData), g.strand = '+' →
      featureFractionRelativePos f g = qSub f.position g.startPos) ∧
    (∀ (f : EncompassedData) (g : EncompassingData), g.strand ≠ '+' →
      featureFractionRelativePos f g = qSub g.endPos f.position) ∧
    (∀ (fractionNum : ℕ) (f : EncompassedData) (g : EncompassingData),
      g.strand = '-' →
      featureFractionUpdate fractionNum 0 0 f g =
      featureFractionUpdate fractionNum 0 0
        { f with position := qSub (qAdd g.startPos g.endPos) f.position }
        { g with strand := '+' }) := by
  refine ⟨by decide, by decide, ?_, ?_, ?_⟩
  · intro f g hg
    simp [featureFractionRelativePos, hg]
  · intro f g hg
    simp [featureFractionRelativePos, hg]
  · intro fractionNum f g hg
    have hrp : featureFractionRelativePos
        { f with position := qSub (qAdd g.startPos g.endPos) f.position }
        { g with strand := '+' } = featureFractionRelativePos f g := by
      simp [featureFractionRelativePos, hg, qSub_eq, qAdd_eq]
      ring
    unfold featureFractionUpdate
    rw [hrp]
    rfl

/-- Witness for `featureFraction_scenario_and_strand_flip`: the strand-flip
conjuncts applied to the concrete `chr1 0 9` scenario. -/
theorem featureFraction_scenario_witness :
    featureFractionRelativePos
      { idx := 0, chromosome := "chr1", position := 2, strand := '+' }
      (EncompassingData.ofFields "chr1" 0 9 '-') =
      qSub (EncompassingData.ofFields "chr1" 0 9 '-').endPos 2 ∧
    featureFractionUpdate 2 0 0
      { idx := 0, chromosome := "chr1", position := 2, strand := '+' }
      (EncompassingData.ofFields "chr1" 0 9 '-') =
    featureFractionUpdate 2 0 0
      { idx := 0, chromosome := "chr1",
        position := qSub (qAdd (EncompassingData.ofFields "chr1" 0 9 '-').startPos
          (EncompassingData.ofFields "chr1" 0 9 '-').endPos) 2, strand := '+' }
      { EncompassingData.ofFields "chr1" 0 9 '-' with strand := '+' } :=
  ⟨featureFraction_scenario_and_strand_flip.2.2.2.1
      { idx := 0, chromosome := "chr1", position := 2, strand := '+' }
      (EncompassingData.ofFields "chr1" 0 9 '-') (by decide),
   featureFraction_scenario_and_strand_flip.2.2.2.2 2
      { idx := 0, chromosome := "chr1", position := 2, strand := '+' }
      (EncompassingData.ofFields "chr1" 0 9 '-') rfl⟩

/-- C3: whenever sortedness checking is enabled for a stream (the default)
and that stream is not sorted ascending by (chromosome lexicographic, start,
end numeric), construction dies fatally in the sortedness check: the
constructor reports an error, and no file — in particular not the output
file — has been opened, so no output is produced. -/
theorem unsorted_input_rejected_before_output
    (encompassedStream encompassingStream : List SortRecord)
    (checkForSortedFiles : Bool × Bool)
    (h : (checkForSortedFiles.1 = true ∧ isSortedStream encompassedStream = false) ∨
         (checkForSortedFiles.2 = true ∧ isSortedStream encompassingStream = false)) :
    (∃ e, thisInThatCounterInit encompassedStream encompassingStream
        checkForSortedFiles = ([], some e)) ∧
    InitEffect.openOutputFile ∉
      (thisInThatCounterInit encompassedStream encompassingStream
        checkForSortedFiles).1 := by
  unfold thisInThatCounterInit checkForSortedInput
  rcases h with ⟨h1, h2⟩ | ⟨h1, h2⟩
  · rw [if_pos ⟨h1, h2⟩]
    exact ⟨⟨_, rfl⟩, by simp⟩
  · by_cases hc : checkForSortedFiles.1 = true ∧ isSortedStream encompassedStream = false
    · rw [if_pos hc]
      exact ⟨⟨_, rfl⟩, by simp⟩
    · rw [if_neg hc, if_pos ⟨h1, h2⟩]
      exact ⟨⟨_, rfl⟩, by simp⟩

/-- Witness for `unsorted_input_rejected_before_output`: a two-line
encompassed stream with the chromosomes out of order, checking enabled. -/
theorem unsorted_input_rejected_witness :
    (∃ e, thisInThatCounterInit
        [⟨"chr2", 1, 2⟩, ⟨"chr1", 1, 2⟩] [⟨"chr1", 1, 2⟩] (true, true) =
        ([], some e)) ∧
    InitEffect.openOutputFile ∉
      (thisInThatCounterInit
        [⟨"chr2", 1, 2⟩, ⟨"chr1", 1, 2⟩] [⟨"chr1", 1, 2⟩] (true, true)).1 :=
  unsorted_input_rejected_before_output
    [⟨"chr2", 1, 2⟩, ⟨"chr1", 1, 2⟩] [⟨"chr1", 1, 2⟩] (true, true)
    (Or.inl ⟨rfl, by decide⟩)

/-- C4 counterexample: in the concrete scenario (features at 100 and 200,
encompassing `chr1 50 150 +`, padding 0, centred relative-position
stratifier), the claim's expected output is wrong: the encompassing centre is
99.5 — not 100 — and the output contains no row with offset 0 and count 1;
the single counted row sits at offset 0.5. -/
theorem relativePos_scenario_claim_counterexample :
    scenarioEncompassing.center ≠ 100 ∧
    OutLine.data { path := [some (.rat 0)], counts := [1] } ∉
      writeResults scenarioRun.hst ∧
    (writeResults scenarioRun.hst).filter isNonZeroDataRow =
      [OutLine.data { path := [some (.rat (Rat.divInt 1 2))], counts := [1] }] := by
  refine ⟨by decide, by decide, by decide⟩

/-- C4 amended: the encompassing centre is 99.5, so the single nonzero output
row is at offset 0.5 with count 1; the feature at 200 generates no overlap
event and is reported to the non-counted path, and under an
encompassed-feature identity stratifier its key is materialized exactly when
tracking of non-encompassed features is enabled (its rows then carry count
0). -/
theorem relativePos_scenario_amended :
    scenarioEncompassing.center = Rat.divInt 199 2 ∧
    (writeResults scenarioRun.hst).filter isNonZeroDataRow =
      [OutLine.data { path := [some (.rat (Rat.divInt 1 2))], counts := [1] }] ∧
    scenarioRun.trace.filter (isOverlapFor 1) = [] ∧
    TraceEvent.nonCounted scenarioEncompassed2 ∈ scenarioRun.trace ∧
    some scenarioEncompassed2.skey ∈ scenarioTrackedRun.hst.allKeysAt 0 ∧
    OutLine.data
      { path := [some scenarioEncompassed2.skey, some (.rat (Rat.divInt 1 2))],
        counts := [0] } ∈ writeResults scenarioTrackedRun.hst ∧
    some scenarioEncompassed2.skey ∉ scenarioUntrackedRun.hst.allKeysAt 0 := by
  refine ⟨by decide, by decide, by decide, by decide, by decide, by decide, by decide⟩

/-- C8 counterexample: duplicate encompassing coordinates are not rejected
"regardless of configuration": with the default configuration (no
`trackAllEncompassing`) a run whose encompassing stream contains the same
record twice completes without any error — the duplicate-location assertion
never fires — and keeps counting (the encompassed feature is even counted
once per duplicate window). -/
theorem duplicate_encompassing_not_always_fatal :
    dupRunDefault.hst.dupAssertTripped = false ∧
    dupRunDefault.hst.countsLog.length = 2 := by
  refine ⟨by decide, by decide⟩

/-- C8 amended: the duplicate-location check lives in
`EncompassingFeatureODS.onNewEncompassingFeature`, which the handler invokes
only when it is configured to track all encompassing features; in that
configuration a second encompassing feature whose `(chromosome, startPos,
endPos, strand)` key was already seen fails the assertion (a fatal
`AssertionError` naming the duplicate location), as both the single-step
statement and the full duplicated-input run show. -/
theorem duplicate_encompassing_assert_under_tracking
    (st : HandlerState) (level : ℕ) (s : Stratifier) (os : ODSState)
    (g : EncompassingData)
    (hget : st.ods.get? level = some (s, os))
    (hcls : s.cls = .encompassingFeatureODS)
    (hdup : some g.skey ∈ st.allKeysAt level) :
    (odsOnNewEncompassingFeature st level (some g)).dupAssertTripped = true ∧
    dupRunTracking.hst.dupAssertTripped = true := by
  refine ⟨?_, by decide⟩
  unfold odsOnNewEncompassingFeature
  rw [hget]
  simp only [hcls, if_pos]
  rw [if_pos (by simpa using hdup)]

/-- Witness for `duplicate_encompassing_assert_under_tracking`: a handler
state holding one encompassing-feature stratifier that already knows the key. -/
theorem duplicate_encompassing_assert_witness :
    (odsOnNewEncompassingFeature
      { initialHandlerState
          [EncompassingFeatureODS .tolerate "Encompassing_Feature"] with
        ods := [(EncompassingFeatureODS .tolerate "Encompassing_Feature",
                 { allKeys := [some dupEncompassing.skey],
                   usedIntPosition := false, usedHalfPosition := false,
                   sortedKeysCache := none })] }
      0 (some dupEncompassing)).dupAssertTripped = true ∧
    dupRunTracking.hst.dupAssertTripped = true :=
  duplicate_encompassing_assert_under_tracking _ 0
    (EncompassingFeatureODS .tolerate "Encompassing_Feature")
    { allKeys := [some dupEncompassing.skey], usedIntPosition := false,
      usedHalfPosition := false, sortedKeysCache := none }
    dupEncompassing rfl rfl (by decide)

/-! ### Trace coherence: the handler state of a simulation is the fold of its
event log. -/

theorem listModify_map_fst {α β : Type} (g : α × β → α × β)
    (hg : ∀ p, (g p).1 = p.1) :
    ∀ (i : ℕ) (l : List (α × β)), (listModify g i l).map (·.1) = l.map (·.1) := by
  intro i l
  induction l generalizing i with
  | nil => cases i <;> rfl
  | cons a rest ih =>
      cases i with
      | zero => simp [listModify, hg]
      | succ j => simp [listModify, ih]

theorem foldl_preserve {α β : Type} (P : β → Prop) (body : β → α → β)
    (hbody : ∀ b a, P b → P (body b a)) :
    ∀ (l : List α) (b : β), P b → P (l.foldl body b) := by
  intro l
  induction l with
  | nil => intro b h; exact h
  | cons a rest ih => intro b h; exact ih _ (hbody b a h)

theorem attemptAddKeyH_fst (st : HandlerState) (level : ℕ) (k : Option SKey) :
    (attemptAddKeyH st level k).ods.map (·.1) = st.ods.map (·.1) := by
  unfold attemptAddKeyH
  split
  · rfl
  · split
    · rfl
    · dsimp only
      apply listModify_map_fst
      intro p
      rfl


theorem relPosFlagsUpdate_fst (st : HandlerState) (level : ℕ)
    (s : Stratifier) (k : Option SKey) :
    (relPosFlagsUpdate st level s k).ods.map (·.1) = st.ods.map (·.1) := by
  unfold relPosFlagsUpdate
  split
  · split
    · dsimp only
      apply listModify_map_fst
      intro p
      rfl
    · rfl
  · rfl

theorem getRelevantKeyM_fst (st : HandlerState) (level : ℕ) (f : EncompassedData) :
    (getRelevantKeyM st level f).2.ods.map (·.1) = st.ods.map (·.1) := by
  unfold getRelevantKeyM
  split
  · rfl
  · dsimp only
    split
    · rw [attemptAddKeyH_fst, relPosFlagsUpdate_fst]
    · rw [relPosFlagsUpdate_fst]

theorem updateODSsStep_fst (f : EncompassedData) (g : EncompassingData)
    (st : HandlerState) (level : ℕ) :
    (updateODSsStep f g st level).ods.map (·.1) = st.ods.map (·.1) := by
  unfold updateODSsStep
  split
  · rfl
  · dsimp only
    split <;> split <;> first | rfl | rw [getRelevantKeyM_fst]

theorem updateODSs_fst (f : EncompassedData) (g : EncompassingData)
    (st : HandlerState) :
    (updateODSs f g st).ods.map (·.1) = st.ods.map (·.1) := by
  unfold updateODSs
  refine foldl_preserve
    (fun st' : HandlerState => st'.ods.map (·.1) = st.ods.map (·.1)) _
    (fun b a hb => ?_) _ _ rfl
  dsimp only
  rw [updateODSsStep_fst, hb]

theorem keyPathM_fst (st : HandlerState) (f : EncompassedData) :
    (keyPathM st f).2.ods.map (·.1) = st.ods.map (·.1) := by
  unfold keyPathM
  refine foldl_preserve
    (fun acc : List (Option SKey) × HandlerState =>
      acc.2.ods.map (·.1) = st.ods.map (·.1)) _ (fun b a hb => ?_) _ _ rfl
  dsimp only
  rw [getRelevantKeyM_fst, hb]

theorem countFeature_fst (st : HandlerState) (f : EncompassedData) :
    (countFeature st f).ods.map (·.1) = st.ods.map (·.1) := by
  unfold countFeature
  dsimp only
  rw [keyPathM_fst]

theorem onNonCounted_fst (cfg : RunConfig) (st : HandlerState)
    (f : EncompassedData) :
    (onNonCountedEncompassedFeature cfg st f).ods.map (·.1) = st.ods.map (·.1) := by
  unfold onNonCountedEncompassedFeature
  split
  · dsimp only
    have h2 : (((List.range st.ods.length).foldl (fun st level =>
          match st.ods.get? level with
          | some (s, _) =>
              if s.cls = .encompassedFeatureODS then attemptAddKeyH st level (some f.skey)
              else st
          | none => st) st)).ods.map (·.1) = st.ods.map (·.1) := by
      refine foldl_preserve
        (fun b : HandlerState => b.ods.map (·.1) = st.ods.map (·.1)) _
        (fun b a hb => ?_) _ _ rfl
      split
      · split
        · rw [attemptAddKeyH_fst, hb]
        · exact hb
      · exact hb
    split <;> split <;>
      first
        | (rw [countFeature_fst]; exact h2)
        | exact h2
  · rfl

theorem odsOnNew_fst (st : HandlerState) (level : ℕ)
    (gOpt : Option EncompassingData) :
    (odsOnNewEncompassingFeature st level gOpt).ods.map (·.1) = st.ods.map (·.1) := by
  unfold odsOnNewEncompassingFeature
  split
  · split
    · split
      · rfl
      · rw [attemptAddKeyH_fst]
    · rfl
  · rfl

theorem onNewEncompassing_fst (cfg : RunConfig) (st : HandlerState)
    (gOpt : Option EncompassingData) :
    (onNewEncompassingFeature cfg st gOpt).ods.map (·.1) = st.ods.map (·.1) := by
  unfold onNewEncompassingFeature
  split
  · dsimp only
    have h1 := foldl_preserve
      (fun b : HandlerState => b.ods.map (·.1) = st.ods.map (·.1))
      (fun st level => odsOnNewEncompassingFeature st level gOpt)
      (fun b a hb => by dsimp only; rw [odsOnNew_fst, hb]) (List.range st.ods.length) st rfl
    split
    · exact h1
    · exact h1
  · rfl

theorem ignoreCheckM_fst (st : HandlerState) (f : EncompassedData) :
    (ignoreCheckM st f).2.ods.map (·.1) = st.ods.map (·.1) := by
  unfold ignoreCheckM
  refine foldl_preserve
    (fun acc : Bool × HandlerState => acc.2.ods.map (·.1) = st.ods.map (·.1)) _
    (fun b a hb => ?_) _ _ rfl
  split
  · split
    · dsimp only
      rw [getRelevantKeyM_fst, hb]
    · exact hb
  · exact hb

theorem getKeysForOutputM_fst (st : HandlerState) (level : ℕ) :
    (getKeysForOutputM st level).2.ods.map (·.1) = st.ods.map (·.1) := by
  unfold getKeysForOutputM
  split
  · rfl
  · split
    · rfl
    · dsimp only
      apply listModify_map_fst
      intro p
      rfl


theorem writerKeyListsFrom_fst (st : HandlerState) (startLevel : ℕ) :
    (writerKeyListsFrom st startLevel).2.ods.map (·.1) = st.ods.map (·.1) := by
  unfold writerKeyListsFrom
  refine foldl_preserve
    (fun acc : List (List (Option SKey)) × HandlerState =>
      acc.2.ods.map (·.1) = st.ods.map (·.1)) _ (fun b a hb => ?_) _ _ rfl
  dsimp only
  rw [getKeysForOutputM_fst, hb]

theorem writeFeatureH_fst (st : HandlerState) (fk : Option SKey) :
    (writeFeatureH st fk).ods.map (·.1) = st.ods.map (·.1) := by
  unfold writeFeatureH
  dsimp only
  rw [writerKeyListsFrom_fst]

theorem flushEncompassedBatch_fst (st : HandlerState) :
    (flushEncompassedBatch st).ods.map (·.1) = st.ods.map (·.1) := by
  unfold flushEncompassedBatch
  dsimp only
  refine foldl_preserve
    (fun b : HandlerState => b.ods.map (·.1) = st.ods.map (·.1)) _
    (fun b a hb => ?_) _ _ rfl
  dsimp only
  rw [writeFeatureH_fst, hb]

theorem flushEncompassingBatch_fst (st : HandlerState) :
    (flushEncompassingBatch st).ods.map (·.1) = st.ods.map (·.1) := by
  unfold flushEncompassingBatch
  dsimp only
  refine foldl_preserve
    (fun b : HandlerState => b.ods.map (·.1) = st.ods.map (·.1)) _
    (fun b a hb => ?_) _ _ rfl
  dsimp only
  rw [writeFeatureH_fst, hb]

theorem writeWaitingFeatures_fst (cfg : RunConfig) (st : HandlerState) :
    (writeWaitingFeatures cfg st).ods.map (·.1) = st.ods.map (·.1) := by
  unfold writeWaitingFeatures
  dsimp only
  split <;> split <;>
    simp only [flushEncompassingBatch_fst, flushEncompassedBatch_fst]

theorem onEncompassed_fst (cfg : RunConfig) (st : HandlerState)
    (f : EncompassedData) (gOpt : Option EncompassingData) (ex : Bool) :
    (onEncompassedFeatureInEncompassingFeature cfg st f gOpt ex).ods.map (·.1) =
      st.ods.map (·.1) := by
  unfold onEncompassedFeatureInEncompassingFeature
  dsimp only
  repeat' split
  all_goals
    simp only [countFeature_fst, updateODSs_fst, onNonCounted_fst, ignoreCheckM_fst]

theorem processEvent_fst (cfg : RunConfig) (st : HandlerState) (e : TraceEvent) :
    (processEvent cfg st e).ods.map (·.1) = st.ods.map (·.1) := by
  cases e with
  | overlap f g exiting => exact onEncompassed_fst cfg st f g exiting
  | nonCounted f => exact onNonCounted_fst cfg st f
  | newEncompassing g => exact onNewEncompassing_fst cfg st g
  | flushWaiting => exact writeWaitingFeatures_fst cfg st

theorem emit_eng (cfg : RunConfig) (sim : Sim) (e : TraceEvent) :
    (emit cfg sim e).eng = sim.eng := rfl

theorem advanceEncompassed_keep (sim : Sim) :
    (advanceEncompassedCursor sim).eng.currentEncompassingFeature =
        sim.eng.currentEncompassingFeature ∧
      (advanceEncompassedCursor sim).eng.confirmedEncompassedFeatures =
        sim.eng.confirmedEncompassedFeatures ∧
      (advanceEncompassedCursor sim).eng.encompassingRest =
        sim.eng.encompassingRest := by
  unfold advanceEncompassedCursor
  split <;> exact ⟨rfl, rfl, rfl⟩

theorem readNextEncompassed_keep (cfg : RunConfig) (sim : Sim) :
    (readNextEncompassedFeature cfg sim).eng.currentEncompassingFeature =
        sim.eng.currentEncompassingFeature ∧
      (readNextEncompassedFeature cfg sim).eng.confirmedEncompassedFeatures =
        sim.eng.confirmedEncompassedFeatures ∧
      (readNextEncompassedFeature cfg sim).eng.encompassingRest =
        sim.eng.encompassingRest := by
  unfold readNextEncompassedFeature
  dsimp only
  rcases advanceEncompassed_keep
    { (match sim.eng.currentEncompassedFeature with
       | some f =>
          if sim.eng.isCurrentEncompassedFeatureActuallyEncompassed = false then
            { emit cfg
                (if (decide (cfg.writeIncrementally = ENCOMPASSED_DATA) &&
                    decide (sim.hst.encompassedToWrite.length > 10000) &&
                    (match sim.eng.lastNonEncompassedFeature with
                     | some l => l.pyLt f
                     | none => false)) = true then
                  emit cfg sim TraceEvent.flushWaiting else sim)
                (TraceEvent.nonCounted f) with
              eng := { (emit cfg
                (if (decide (cfg.writeIncrementally = ENCOMPASSED_DATA) &&
                    decide (sim.hst.encompassedToWrite.length > 10000) &&
                    (match sim.eng.lastNonEncompassedFeature with
                     | some l => l.pyLt f
                     | none => false)) = true then
                  emit cfg sim TraceEvent.flushWaiting else sim)
                (TraceEvent.nonCounted f)).eng with
                lastNonEncompassedFeature := some f } }
          else sim
       | none => sim) with
      eng := { (match sim.eng.currentEncompassedFeature with
       | some f =>
          if sim.eng.isCurrentEncompassedFeatureActuallyEncompassed = false then
            { emit cfg
                (if (decide (cfg.writeIncrementally = ENCOMPASSED_DATA) &&
                    decide (sim.hst.encompassedToWrite.length > 10000) &&
                    (match sim.eng.lastNonEncompassedFeature with
                     | some l => l.pyLt f
                     | none => false)) = true then
                  emit cfg sim TraceEvent.flushWaiting else sim)
                (TraceEvent.nonCounted f) with
              eng := { (emit cfg
                (if (decide (cfg.writeIncrementally = ENCOMPASSED_DATA) &&
                    decide (sim.hst.encompassedToWrite.length > 10000) &&
                    (match sim.eng.lastNonEncompassedFeature with
                     | some l => l.pyLt f
                     | none => false)) = true then
                  emit cfg sim TraceEvent.flushWaiting else sim)
                (TraceEvent.nonCounted f)).eng with
                lastNonEncompassedFeature := some f } }
          else sim
       | none => sim).eng with
        isCurrentEncompassedFeatureActuallyEncompassed := false } }
    with ⟨k1, k2, k3⟩
  refine ⟨?_, ?_, ?_⟩
  · rw [k1]
    split
    · split
      · dsimp only
        rw [emit_eng]
        split
        · rw [emit_eng]
        · rfl
      · rfl
    · rfl
  · rw [k2]
    split
    · split
      · dsimp only
        rw [emit_eng]
        split
        · rw [emit_eng]
        · rfl
      · rfl
    · rfl
  · rw [k3]
    split
    · split
      · dsimp only
        rw [emit_eng]
        split
        · rw [emit_eng]
        · rfl
      · rfl
    · rfl

theorem confirmRecord_conf (cfg : RunConfig) (f : EncompassedData)
    (g : EncompassingData) (sim : Sim) :
    ({ emit cfg sim (.overlap f (some g) false) with
        eng := { (emit cfg sim (.overlap f (some g) false)).eng with
          confirmedEncompassedFeatures :=
            (emit cfg sim (.overlap f (some g) false)).eng.confirmedEncompassedFeatures
              ++ [f],
          isCurrentEncompassedFeatureActuallyEncompassed := true } }
      ).eng.confirmedEncompassedFeatures =
      sim.eng.confirmedEncompassedFeatures ++ [f] := by
  dsimp only
  rw [emit_eng]

theorem P_readNextEncompassed (cfg : RunConfig) (sim : Sim)
    (hP : NoneImpliesDrained sim) :
    NoneImpliesDrained (readNextEncompassedFeature cfg sim) := by
  intro hnone
  rw [(readNextEncompassed_keep cfg sim).2.1]
  apply hP
  rw [← (readNextEncompassed_keep cfg sim).1]
  exact hnone

theorem P_drain (cfg : RunConfig) :
    ∀ (fuel : ℕ) {sim : Sim}, NoneImpliesDrained sim →
      NoneImpliesDrained (drainEncompassed cfg fuel sim) := by
  intro fuel
  induction fuel with
  | zero => intro sim h; exact h
  | succ k ih =>
      intro sim h
      unfold drainEncompassed
      split
      · exact h
      · exact ih (P_readNextEncompassed cfg _ h)

theorem ignoreCheckM_noIgnore (st : HandlerState) (f : EncompassedData)
    (hni : ∀ s ∈ st.ods.map (·.1), s.ambiguityHandling ≠ .ignore) :
    (ignoreCheckM st f).1 = false := by
  unfold ignoreCheckM
  have h := foldl_preserve
    (fun acc : Bool × HandlerState =>
      acc.1 = false ∧ acc.2.ods.map (·.1) = st.ods.map (·.1))
    (fun acc level =>
      match acc.2.ods.get? level with
      | some (s, _) =>
          if s.ambiguityHandling = .ignore then
            let r := getRelevantKeyM acc.2 level f
            (acc.1 ∨ r.1 = none, r.2)
          else acc
      | none => acc)
    (fun acc level hacc => by
      rcases hacc with ⟨h1, h2⟩
      dsimp only
      split
      · rename_i s os hp
        split
        · rename_i hcond
          exfalso
          have hm : s ∈ acc.2.ods.map (·.1) := by
            have hmem := List.get?_mem hp
            exact List.mem_map_of_mem _ hmem
          rw [h2] at hm
          exact hni s hm hcond
        · exact ⟨h1, h2⟩
      · exact ⟨h1, h2⟩)
    (List.range st.ods.length) (false, st) ⟨rfl, rfl⟩
  exact h.1

theorem processTrace_fst (cfg : RunConfig) (h0 : HandlerState)
    (trace : List TraceEvent) :
    (processTrace cfg h0 trace).ods.map (·.1) = h0.ods.map (·.1) := by
  induction trace generalizing h0 with
  | nil => rfl
  | cons e rest ih =>
      have hstep : processTrace cfg h0 (e :: rest) =
          processTrace cfg (processEvent cfg h0 e) rest := rfl
      rw [hstep, ih, processEvent_fst]

theorem ignoreCheckM_noIgnore2 (st0 : HandlerState) (f : EncompassedData)
    (l : List Stratifier) (hl : st0.ods.map (·.1) = l)
    (hni : ∀ s ∈ l, s.ambiguityHandling ≠ AmbiguityHandling.ignore) :
    (ignoreCheckM st0 f).1 = false := by
  apply ignoreCheckM_noIgnore
  rw [hl]
  exact hni

end CountThisInThat
